import Mathlib

/-!
Verification of the PetcubeHelper reactive pattern engine.

Shallow embedding of the safety-relevant parts of the repository:
`src/modules/patterns.py` (PatternExecutor), `src/patterns/base_pattern.py`
(BasePattern), `src/modules/vision/cat_detector.py` (CatDetector),
`src/modules/vision/cat_patterns.py` (CatReactivePatterns) and the continuous
scheduler of `src/petcubehelper.py`.  Machine coordinates are modelled as `ℤ`,
real-valued quantities (delays, distances, intensities) as `ℚ`; Python's
`int(...)` truncation toward zero is modelled by `pytrunc`.
-/

namespace PetcubeHelper

/-- Safe zone pixel rectangle as stored in `PatternExecutor.safe_zone`
(`src/modules/patterns.py`): keys `min_x`, `max_x`, `min_y`, `max_y`. -/
structure SafeZone where
  min_x : ℤ
  max_x : ℤ
  min_y : ℤ
  max_y : ℤ

/-- The per-axis clamp applied by `PatternExecutor.execute_tap`
(`src/modules/patterns.py` lines 96-100):
`x = max(min_x, min(x, max_x))`, `y = max(min_y, min(y, max_y))`. -/
def clampToSafeZone (sz : SafeZone) (p : ℤ × ℤ) : ℤ × ℤ :=
  (max sz.min_x (min p.1 sz.max_x), max sz.min_y (min p.2 sz.max_y))

/-- The coordinate pair forwarded to the device collaborator (`adb.tap_screen`)
by `PatternExecutor.execute_tap`: the clamped point when `enforce_safe_zone`
is set, the raw point otherwise. -/
def execute_tap_forwarded (sz : SafeZone) (enforce : Bool) (p : ℤ × ℤ) : ℤ × ℤ :=
  if enforce then clampToSafeZone sz p else p

/-- A tracked bounding box `(x, y, w, h)` as appended to
`CatDetector.cat_positions` (`src/modules/vision/cat_detector.py`). -/
structure BBox where
  x : ℤ
  y : ℤ
  w : ℤ
  h : ℤ

/-- Box center as computed inside `get_cat_movement_vector`:
`(x + w//2, y + h//2)` with Python floor division. -/
def boxCenter (b : BBox) : ℤ × ℤ := (b.x + b.w.fdiv 2, b.y + b.h.fdiv 2)

/-- Model of `CatDetector.get_cat_movement_vector` (`src/modules/vision/cat_detector.py`
lines 145-166): `None` when fewer than two positions are stored, otherwise the
difference of the centers of the two most recent boxes
(`positions[-1]` center minus `positions[-2]` center), returned as-is. -/
def get_cat_movement_vector (positions : List BBox) : Option (ℤ × ℤ) :=
  if positions.length < 2 then none
  else
    match positions.reverse with
    | p2 :: p1 :: _ =>
        let c1 := boxCenter p1
        let c2 := boxCenter p2
        some (c2.1 - c1.1, c2.2 - c1.2)
    | _ => none

/-- C1: with safe-zone enforcement enabled and pixel bounds satisfying
`min_x ≤ max_x` and `min_y ≤ max_y`, every coordinate pair forwarded to the
device tap collaborator by `execute_tap` lies inside the safe zone's pixel
rectangle, for every input coordinate pair (hence for every pattern and
intensity, since all taps funnel through `execute_tap`). -/
theorem executeTap_containment (sz : SafeZone) (x y : ℤ)
    (hx : sz.min_x ≤ sz.max_x) (hy : sz.min_y ≤ sz.max_y) :
    sz.min_x ≤ (execute_tap_forwarded sz true (x, y)).1 ∧
    (execute_tap_forwarded sz true (x, y)).1 ≤ sz.max_x ∧
    sz.min_y ≤ (execute_tap_forwarded sz true (x, y)).2 ∧
    (execute_tap_forwarded sz true (x, y)).2 ≤ sz.max_y := by
  simp only [execute_tap_forwarded, clampToSafeZone, if_true]
  refine ⟨le_max_left _ _, ?_, le_max_left _ _, ?_⟩ <;> simp <;> omega

/-- Witness for C1: the default safe zone `{0, 1080, 0, 960}` and the
out-of-zone request `(-50, 2000)` produce an in-zone forwarded tap. -/
theorem executeTap_containment_witness :
    (0 : ℤ) ≤ (execute_tap_forwarded ⟨0, 1080, 0, 960⟩ true (-50, 2000)).1 ∧
    (execute_tap_forwarded ⟨0, 1080, 0, 960⟩ true (-50, 2000)).1 ≤ 1080 ∧
    (0 : ℤ) ≤ (execute_tap_forwarded ⟨0, 1080, 0, 960⟩ true (-50, 2000)).2 ∧
    (execute_tap_forwarded ⟨0, 1080, 0, 960⟩ true (-50, 2000)).2 ≤ 960 :=
  executeTap_containment ⟨0, 1080, 0, 960⟩ (-50) 2000 (by decide) (by decide)

/-- C8: the safe-zone clamp applied by `execute_tap` is idempotent: clamping an
already clamped point yields the same point, for every point and every safe
zone (no well-formedness hypothesis is even needed). -/
theorem executeTap_clamp_idempotent (sz : SafeZone) (p : ℤ × ℤ) :
    execute_tap_forwarded sz true (execute_tap_forwarded sz true p) =
      execute_tap_forwarded sz true p := by
  simp only [execute_tap_forwarded, clampToSafeZone, if_true]
  refine Prod.ext ?_ ?_ <;> simp <;> omega

/-- C3 counterexample: for the history whose two most recent boxes have centers
`(10,10)` and `(13,14)`, `get_cat_movement_vector` returns the raw difference
`(3, 4)` — not the unit vector `(0.6, 0.8)` claimed by the spec (the returned
integer vector has squared magnitude 25, not 1). -/
theorem movement_vector_counterexample :
    get_cat_movement_vector [⟨5, 5, 10, 10⟩, ⟨8, 9, 10, 10⟩] = some (3, 4) ∧
    ((3 : ℚ), (4 : ℚ)) ≠ ((6 : ℚ)/10, (8 : ℚ)/10) ∧
    (3 : ℤ) * 3 + 4 * 4 ≠ 1 := by
  refine ⟨by decide, by norm_num [Prod.ext_iff], by decide⟩

/-- C3 amended: whenever the history holds at least two entries,
`get_cat_movement_vector` returns the raw (unnormalized) difference of the
centers of the two most recent bounding boxes — for centers `(10,10)` then
`(13,14)` that is `(3,4)` — and with fewer than two entries the result is
absent (`None`). -/
theorem movement_vector_raw_difference (l : List BBox) (p1 p2 : BBox)
    (short : List BBox) (hshort : short.length < 2) :
    get_cat_movement_vector (l ++ [p1, p2]) =
      some ((boxCenter p2).1 - (boxCenter p1).1,
            (boxCenter p2).2 - (boxCenter p1).2) ∧
    get_cat_movement_vector short = none := by
  constructor
  · have hrev : (l ++ [p1, p2]).reverse = p2 :: p1 :: l.reverse := by
      simp
    have hlen : ¬ (l ++ [p1, p2]).length < 2 := by
      simp [List.length_append]
    simp only [get_cat_movement_vector, hlen, if_false, hrev]
  · simp only [get_cat_movement_vector, hshort, if_true]

/-- Witness for C3 amended: concrete two-entry history with centers `(10,10)`
and `(13,14)`, and the empty history as the short case. -/
theorem movement_vector_raw_difference_witness :
    get_cat_movement_vector ([] ++ [⟨5, 5, 10, 10⟩, ⟨8, 9, 10, 10⟩]) =
      some ((boxCenter ⟨8, 9, 10, 10⟩).1 - (boxCenter ⟨5, 5, 10, 10⟩).1,
            (boxCenter ⟨8, 9, 10, 10⟩).2 - (boxCenter ⟨5, 5, 10, 10⟩).2) ∧
    get_cat_movement_vector [] = none :=
  movement_vector_raw_difference [] ⟨5, 5, 10, 10⟩ ⟨8, 9, 10, 10⟩ [] (by decide)

/-- Upper end of the inter-tap delay drawn by
`PatternExecutor.execute_random_pattern` (`src/modules/patterns.py` line 203):
`delay = max(0.2, 1.5 * (1.0 - intensity))`; the actual sleep is drawn
uniformly from `[0.2, delay]` (line 204). -/
def randomPatternDelayUpper (intensity : ℚ) : ℚ := max (1/5) (3/2 * (1 - intensity))

/-- A sleep duration the random pattern can draw between two consecutive taps:
any value of `random.uniform(0.2, delay)`. -/
def randomPatternDelayAdmissible (intensity d : ℚ) : Prop :=
  1/5 ≤ d ∧ d ≤ randomPatternDelayUpper intensity

/-- C2 fails on the code: at intensity `0.1` the random pattern's inter-tap
sleep is drawn uniformly from `[0.2, 1.35]`, so a gap of `1.2` seconds
(indeed up to `1.35`) between consecutive dispatched taps is admissible,
exceeding the claimed bound of `1.0` second plus one `0.1`-second scheduling
quantum.  No safety tap is interleaved inside that sleep. -/
theorem random_pattern_gap_exceeds_safety_bound :
    randomPatternDelayUpper (1/10) = 27/20 ∧
    randomPatternDelayAdmissible (1/10) (6/5) ∧
    (1 : ℚ) + 1/10 < 6/5 ∧ (1 : ℚ) + 1/10 < randomPatternDelayUpper (1/10) := by
  refine ⟨?_, ⟨by norm_num, ?_⟩, by norm_num, ?_⟩ <;>
    · rw [randomPatternDelayUpper]
      norm_num

/-- Events produced by `BasePattern._execute_wait`
(`src/patterns/base_pattern.py` lines 131-142): sleeps interleaved with
safety taps (`make_safety_movement`). -/
inductive WaitEvent where
  | sleep (duration : ℚ)
  | safetyTap
deriving DecidableEq

/-- Whether a wait event is a sleep slice. -/
def WaitEvent.isSleep : WaitEvent → Bool
  | .sleep _ => true
  | .safetyTap => false

/-- The slicing loop of `BasePattern._execute_wait`:
`while wait_time > 0.8: sleep(0.8); make_safety_movement(); wait_time -= 0.8`
followed by `if wait_time > 0: sleep(wait_time)`.  The loop is expressed with
a fuel parameter; `execute_wait` below supplies enough fuel. -/
def execute_wait_loop : ℕ → ℚ → List WaitEvent
  | 0, w => if 0 < w then [WaitEvent.sleep w] else []
  | fuel + 1, w =>
      if 4/5 < w then
        WaitEvent.sleep (4/5) :: WaitEvent.safetyTap :: execute_wait_loop fuel (w - 4/5)
      else if 0 < w then [WaitEvent.sleep w] else []

/-- Total wait duration computed by `BasePattern._execute_wait` (line 133):
`(units * time_unit_ms / 1000.0) * speed_modifier` with
`speed_modifier = 2.0 - intensity` (`BasePattern.execute` line 101). -/
def waitDuration (units time_unit_ms intensity : ℚ) : ℚ :=
  units * time_unit_ms / 1000 * (2 - intensity)

/-- Event trace of `BasePattern._execute_wait` for a Wait of `units` units. -/
def execute_wait (units time_unit_ms intensity : ℚ) : List WaitEvent :=
  execute_wait_loop (2 * ⌈waitDuration units time_unit_ms intensity⌉₊)
    (waitDuration units time_unit_ms intensity)

/-- Total slept time in a wait-event trace. -/
def sleepSum : List WaitEvent → ℚ
  | [] => 0
  | WaitEvent.sleep d :: rest => d + sleepSum rest
  | WaitEvent.safetyTap :: rest => sleepSum rest

theorem execute_wait_loop_sleepSum (fuel : ℕ) :
    ∀ w : ℚ, 0 ≤ w → sleepSum (execute_wait_loop fuel w) = w := by
  induction fuel with
  | zero =>
      intro w hw
      by_cases h : 0 < w
      · simp [execute_wait_loop, h, sleepSum]
      · have : w = 0 := le_antisymm (not_lt.mp h) hw
        simp [execute_wait_loop, this, sleepSum]
  | succ fuel ih =>
      intro w hw
      by_cases h : 4/5 < w
      · have h' : (0 : ℚ) ≤ w - 4/5 := by linarith
        simp only [execute_wait_loop, if_pos h, sleepSum, ih _ h']
        ring
      · by_cases h0 : 0 < w
        · simp [execute_wait_loop, if_neg h, h0, sleepSum]
        · have : w = 0 := le_antisymm (not_lt.mp h0) hw
          norm_num [execute_wait_loop, this, sleepSum]

theorem execute_wait_loop_slice_le (fuel : ℕ) :
    ∀ w : ℚ, w ≤ 4/5 * (fuel + 1) →
      ∀ d : ℚ, WaitEvent.sleep d ∈ execute_wait_loop fuel w → d ≤ 4/5 := by
  induction fuel with
  | zero =>
      intro w hfuel d hd
      by_cases h : 0 < w
      · simp only [execute_wait_loop, if_pos h, List.mem_singleton] at hd
        cases hd
        linarith
      · simp [execute_wait_loop, h] at hd
  | succ fuel ih =>
      intro w hfuel d hd
      by_cases h : 4/5 < w
      · simp only [execute_wait_loop, if_pos h, List.mem_cons] at hd
        rcases hd with h1 | h2 | h3
        · cases h1; norm_num
        · exact absurd h2 (by simp)
        · refine ih (w - 4/5) ?_ d h3
          push_cast at hfuel
          linarith
      · by_cases h0 : 0 < w
        · simp only [execute_wait_loop, if_neg h, if_pos h0, List.mem_singleton] at hd
          cases hd
          linarith [not_lt.mp h]
        · simp [execute_wait_loop, if_neg h, h0] at hd

theorem execute_wait_loop_head_sleep (fuel : ℕ) (w : ℚ) (hw : 0 < w) :
    ∃ d : ℚ, (execute_wait_loop fuel w).head? = some (WaitEvent.sleep d) := by
  cases fuel with
  | zero => exact ⟨w, by simp [execute_wait_loop, hw]⟩
  | succ fuel =>
      by_cases h : 4/5 < w
      · exact ⟨4/5, by simp [execute_wait_loop, h]⟩
      · exact ⟨w, by simp [execute_wait_loop, if_neg h, hw]⟩

theorem execute_wait_loop_alternates (fuel : ℕ) :
    ∀ w : ℚ, List.Chain' (fun a b => a.isSleep ≠ b.isSleep) (execute_wait_loop fuel w) := by
  induction fuel with
  | zero =>
      intro w
      by_cases h : 0 < w <;> simp [execute_wait_loop, h]
  | succ fuel ih =>
      intro w
      by_cases h : 4/5 < w
      · simp only [execute_wait_loop, if_pos h]
        refine List.chain'_cons.mpr ⟨by simp [WaitEvent.isSleep], ?_⟩
        rcases execute_wait_loop_head_sleep fuel (w - 4/5) (by linarith) with ⟨d, hd⟩
        cases hrest : execute_wait_loop fuel (w - 4/5) with
        | nil => simp
        | cons e rest =>
            rw [hrest] at hd
            simp only [List.head?_cons, Option.some.injEq] at hd
            subst hd
            refine List.chain'_cons.mpr ⟨by simp [WaitEvent.isSleep], ?_⟩
            have := ih (w - 4/5)
            rw [hrest] at this
            exact this
      · by_cases h0 : 0 < w <;> simp [execute_wait_loop, if_neg h, h0]

theorem waitDuration_fuel_ok (w : ℚ) (hw : 0 ≤ w) :
    w ≤ 4/5 * ((2 * ⌈w⌉₊ : ℕ) + 1) := by
  have h1 : w ≤ (⌈w⌉₊ : ℚ) := Nat.le_ceil w
  have h2 : (0 : ℚ) ≤ (⌈w⌉₊ : ℚ) := by positivity
  push_cast
  linarith

/-- C4: executing a Wait of `u` units with time unit `T` ms and intensity
`i ∈ (0,1]` sleeps for a total of `u * T / 1000 * (2 - i)` seconds, every
individual sleep slice is at most `0.8` seconds, and sleeps and safety taps
strictly alternate in the trace (exactly one in-zone safety tap between any
two consecutive slices). -/
theorem wait_slicing (u T i : ℚ) (hu : 0 ≤ u) (hT : 0 ≤ T)
    (hi0 : 0 < i) (hi1 : i ≤ 1) :
    sleepSum (execute_wait u T i) = u * T / 1000 * (2 - i) ∧
    (∀ d : ℚ, WaitEvent.sleep d ∈ execute_wait u T i → d ≤ 4/5) ∧
    List.Chain' (fun a b => a.isSleep ≠ b.isSleep) (execute_wait u T i) := by
  have hw : 0 ≤ waitDuration u T i := by
    have h2i : (0 : ℚ) < 2 - i := by linarith
    have : 0 ≤ u * T / 1000 := by positivity
    exact mul_nonneg this (le_of_lt h2i)
  refine ⟨execute_wait_loop_sleepSum _ _ hw, ?_, execute_wait_loop_alternates _ _⟩
  intro d hd
  exact execute_wait_loop_slice_le _ _ (waitDuration_fuel_ok _ hw) d hd

/-- Witness for C4: a Wait of 2 units at `time_unit_ms = 1000` and intensity
`1/2` (total wait 3 s, sliced as 0.8+0.8+0.8+0.6 with taps in between). -/
theorem wait_slicing_witness :
    sleepSum (execute_wait 2 1000 (1/2)) = 2 * 1000 / 1000 * (2 - 1/2) ∧
    (∀ d : ℚ, WaitEvent.sleep d ∈ execute_wait 2 1000 (1/2) → d ≤ 4/5) ∧
    List.Chain' (fun a b => a.isSleep ≠ b.isSleep) (execute_wait 2 1000 (1/2)) :=
  wait_slicing 2 1000 (1/2) (by norm_num) (by norm_num) (by norm_num) (by norm_num)

/-- Python's `int(...)` applied to a real value: truncation toward zero. -/
def pytrunc (q : ℚ) : ℤ := if 0 ≤ q then ⌊q⌋ else ⌈q⌉

theorem pytrunc_sq_le (q : ℚ) : ((pytrunc q : ℤ) : ℚ) ^ 2 ≤ q ^ 2 := by
  rw [pytrunc]
  by_cases h : 0 ≤ q
  · rw [if_pos h]
    have h1 : (0 : ℚ) ≤ (⌊q⌋ : ℚ) := by exact_mod_cast Int.floor_nonneg.mpr h
    have h2 : ((⌊q⌋ : ℤ) : ℚ) ≤ q := Int.floor_le q
    nlinarith
  · rw [if_neg h]
    push_neg at h
    have h1 : ((⌈q⌉ : ℤ) : ℚ) ≤ 0 := by
      exact_mod_cast Int.ceil_le.mpr (by exact_mod_cast le_of_lt h : q ≤ ((0 : ℤ) : ℚ))
    have h2 : q ≤ ((⌈q⌉ : ℤ) : ℚ) := Int.le_ceil q
    nlinarith

theorem pytrunc_sq_ge (q : ℚ) : q ^ 2 - 2 * |q| ≤ ((pytrunc q : ℤ) : ℚ) ^ 2 := by
  rw [pytrunc]
  by_cases h : 0 ≤ q
  · rw [if_pos h, abs_of_nonneg h]
    have h2 : ((⌊q⌋ : ℤ) : ℚ) ≤ q := Int.floor_le q
    have h3 : q - 1 < ((⌊q⌋ : ℤ) : ℚ) := Int.sub_one_lt_floor q
    nlinarith
  · push_neg at h
    rw [if_neg (not_le.mpr h), abs_of_neg h]
    have h2 : q ≤ ((⌈q⌉ : ℤ) : ℚ) := Int.le_ceil q
    have h3 : ((⌈q⌉ : ℤ) : ℚ) < q + 1 := Int.ceil_lt_add_one q
    nlinarith

/-- One decoy update of `CatReactivePatterns.execute_cat_teasing_pattern`
(`src/modules/vision/cat_patterns.py` lines 149-177), taken after a fresh
subject read.  `catC` is the new cat center, `decoy` the current decoy point,
`dist` the value `math.sqrt(dx*dx + dy*dy)` computed by the code (supplied
here together with its defining hypotheses), `drift` the random
`randint` offsets of the far branch; `tease_distance = 200`
(constructor, line 26). -/
def teasingNextDecoy (catC decoy : ℤ × ℤ) (dist : ℚ) (drift : ℤ × ℤ) : ℤ × ℤ :=
  let dx : ℚ := (decoy.1 : ℚ) - (catC.1 : ℚ)
  let dy : ℚ := (decoy.2 : ℚ) - (catC.2 : ℚ)
  if dist < 200 then
    let u : ℚ × ℚ := if 0 < dist then (dx / dist, dy / dist) else (1, 0)
    (catC.1 + pytrunc (u.1 * 200), catC.2 + pytrunc (u.2 * 200))
  else
    (decoy.1 + drift.1, decoy.2 + drift.2)

/-- C6 counterexample: subject center `(0,0)`, current decoy `(3,4)`
(distance 5, within the tease distance 200).  The next decoy is `(120,160)`,
at distance exactly 200 from the subject — not strictly farther than the
tease distance as claimed. -/
theorem teasing_retreat_counterexample :
    teasingNextDecoy (0, 0) (3, 4) 5 (0, 0) = (120, 160) ∧
    (5 : ℚ) ^ 2 = ((3 : ℚ) - 0) ^ 2 + ((4 : ℚ) - 0) ^ 2 ∧
    (0 : ℚ) ≤ 5 ∧ (5 : ℚ) < 200 ∧
    ¬ ((200 : ℤ) ^ 2 < (120 - 0) ^ 2 + (160 - 0) ^ 2) := by
  refine ⟨?_, by norm_num, by norm_num, by norm_num, by decide⟩
  simp only [teasingNextDecoy]
  norm_num [pytrunc]

/-- C6 amended: whenever the freshly read subject center is within the tease
distance of the current decoy, the next decoy lies at distance **at most** the
tease distance (200) from the subject and strictly more than `tease - 2`
(198) — the exact push to distance 200 loses up to `√2 < 2` pixels to the
integer truncation of each coordinate, so "strictly farther than the tease
distance" fails only by that truncation error. -/
theorem teasing_retreat_bounds (catC decoy : ℤ × ℤ) (dist : ℚ) (drift : ℤ × ℤ)
    (hd2 : dist ^ 2 = ((decoy.1 : ℚ) - catC.1) ^ 2 + ((decoy.2 : ℚ) - catC.2) ^ 2)
    (hd0 : 0 ≤ dist) (hnear : dist < 200) :
    (198 : ℚ) ^ 2 <
        (((teasingNextDecoy catC decoy dist drift).1 : ℚ) - catC.1) ^ 2 +
        (((teasingNextDecoy catC decoy dist drift).2 : ℚ) - catC.2) ^ 2 ∧
    (((teasingNextDecoy catC decoy dist drift).1 : ℚ) - catC.1) ^ 2 +
        (((teasingNextDecoy catC decoy dist drift).2 : ℚ) - catC.2) ^ 2 ≤
      (200 : ℚ) ^ 2 := by
  simp only [teasingNextDecoy, if_pos hnear]
  by_cases hpos : 0 < dist
  · simp only [if_pos hpos]
    set dx : ℚ := (decoy.1 : ℚ) - (catC.1 : ℚ) with hdx
    set dy : ℚ := (decoy.2 : ℚ) - (catC.2 : ℚ) with hdy
    set a : ℚ := dx / dist * 200 with ha
    set b : ℚ := dy / dist * 200 with hb
    have hdistne : dist ≠ 0 := ne_of_gt hpos
    have hab : a ^ 2 + b ^ 2 = 40000 := by
      rw [ha, hb]
      field_simp
      nlinarith [hd2]
    have hca : ((catC.1 + pytrunc a : ℤ) : ℚ) - (catC.1 : ℚ) = ((pytrunc a : ℤ) : ℚ) := by
      push_cast; ring
    have hcb : ((catC.2 + pytrunc b : ℤ) : ℚ) - (catC.2 : ℚ) = ((pytrunc b : ℤ) : ℚ) := by
      push_cast; ring
    rw [hca, hcb]
    have hub : ((pytrunc a : ℤ) : ℚ) ^ 2 + ((pytrunc b : ℤ) : ℚ) ^ 2 ≤ 40000 := by
      have := pytrunc_sq_le a
      have := pytrunc_sq_le b
      linarith
    have hlb : a ^ 2 + b ^ 2 - 2 * (|a| + |b|) ≤
        ((pytrunc a : ℤ) : ℚ) ^ 2 + ((pytrunc b : ℤ) : ℚ) ^ 2 := by
      have := pytrunc_sq_ge a
      have := pytrunc_sq_ge b
      linarith
    have hs2 : (|a| + |b|) ^ 2 ≤ 2 * 40000 := by
      have h1 : |a| ^ 2 = a ^ 2 := sq_abs a
      have h2 : |b| ^ 2 = b ^ 2 := sq_abs b
      nlinarith [sq_nonneg (|a| - |b|)]
    have hsle : |a| + |b| < 283 := by
      nlinarith [abs_nonneg a, abs_nonneg b]
    constructor
    · nlinarith
    · nlinarith
  · have hz : dist = 0 := le_antisymm (not_lt.mp hpos) hd0
    simp only [if_neg hpos]
    have h200 : pytrunc ((1 : ℚ) * 200) = 200 := by norm_num [pytrunc]
    have h0 : pytrunc ((0 : ℚ) * 200) = 0 := by norm_num [pytrunc]
    rw [h200, h0]
    push_cast
    ring_nf
    norm_num

/-- Witness for C6 amended: subject at `(0,0)`, decoy at `(3,4)`, distance 5. -/
theorem teasing_retreat_bounds_witness :
    (198 : ℚ) ^ 2 <
        (((teasingNextDecoy (0, 0) (3, 4) 5 (0, 0)).1 : ℚ) - (0 : ℤ)) ^ 2 +
        (((teasingNextDecoy (0, 0) (3, 4) 5 (0, 0)).2 : ℚ) - (0 : ℤ)) ^ 2 ∧
    (((teasingNextDecoy (0, 0) (3, 4) 5 (0, 0)).1 : ℚ) - (0 : ℤ)) ^ 2 +
        (((teasingNextDecoy (0, 0) (3, 4) 5 (0, 0)).2 : ℚ) - (0 : ℤ)) ^ 2 ≤
      (200 : ℚ) ^ 2 :=
  teasing_retreat_bounds (0, 0) (3, 4) 5 (0, 0) (by norm_num) (by norm_num) (by norm_num)

/-- One tap of `CatReactivePatterns.execute_cat_enrichment_pattern`
(`src/modules/vision/cat_patterns.py` lines 211-220): a point at the random
angle whose cosine/sine are `(c, s)` and random distance `d` from the subject
center, with Python `int(...)` truncation per coordinate.  The code draws
`d` uniformly from `[50, 200 + 100*intensity]`. -/
def enrichmentTap (catC : ℤ × ℤ) (c s d : ℚ) : ℤ × ℤ :=
  (catC.1 + pytrunc (c * d), catC.2 + pytrunc (s * d))

/-- C7 counterexample: subject at `(0,0)`, angle with `(cos, sin) =
(20/29, 21/29)` (a point on the unit circle), distance draw `d = 50` (the
lower end of the admissible range for every intensity).  The generated tap is
`(34, 36)`, at squared distance `2452 < 2500 = 50²` from the subject — closer
than the claimed 50-pixel floor. -/
theorem enrichment_floor_counterexample :
    enrichmentTap (0, 0) (20/29) (21/29) 50 = (34, 36) ∧
    (20/29 : ℚ) ^ 2 + (21/29 : ℚ) ^ 2 = 1 ∧
    (50 : ℚ) ≤ 50 ∧ (50 : ℚ) ≤ 200 + 100 * (1/2) ∧
    ¬ ((50 : ℤ) ^ 2 ≤ (34 - 0) ^ 2 + (36 - 0) ^ 2) := by
  refine ⟨?_, by norm_num, by norm_num, by norm_num, by decide⟩
  simp only [enrichmentTap]
  norm_num [pytrunc]

/-- C7 amended: every enrichment tap lies at distance strictly greater than
48 pixels (`50 - 2`) from the subject center — the 50-pixel floor on the drawn
distance loses up to `√2 < 2` pixels to the integer truncation of each
coordinate. -/
theorem enrichment_floor_bounds (catC : ℤ × ℤ) (c s d : ℚ)
    (hcs : c ^ 2 + s ^ 2 = 1) (hd : 50 ≤ d) :
    (48 : ℚ) ^ 2 <
      (((enrichmentTap catC c s d).1 : ℚ) - catC.1) ^ 2 +
      (((enrichmentTap catC c s d).2 : ℚ) - catC.2) ^ 2 := by
  simp only [enrichmentTap]
  set a : ℚ := c * d with ha
  set b : ℚ := s * d with hb
  have hca : ((catC.1 + pytrunc a : ℤ) : ℚ) - (catC.1 : ℚ) = ((pytrunc a : ℤ) : ℚ) := by
    push_cast; ring
  have hcb : ((catC.2 + pytrunc b : ℤ) : ℚ) - (catC.2 : ℚ) = ((pytrunc b : ℤ) : ℚ) := by
    push_cast; ring
  rw [hca, hcb]
  have hab : a ^ 2 + b ^ 2 = d ^ 2 := by
    rw [ha, hb]
    nlinarith [hcs]
  have hlb : a ^ 2 + b ^ 2 - 2 * (|a| + |b|) ≤
      ((pytrunc a : ℤ) : ℚ) ^ 2 + ((pytrunc b : ℤ) : ℚ) ^ 2 := by
    have := pytrunc_sq_ge a
    have := pytrunc_sq_ge b
    linarith
  have hs2 : (|a| + |b|) ^ 2 ≤ 2 * d ^ 2 := by
    have h1 : |a| ^ 2 = a ^ 2 := sq_abs a
    have h2 : |b| ^ 2 = b ^ 2 := sq_abs b
    nlinarith [sq_nonneg (|a| - |b|)]
  have hsle : |a| + |b| < 1415/1000 * d := by
    nlinarith [abs_nonneg a, abs_nonneg b]
  nlinarith [hab, hlb, hsle, hd]

/-- Witness for C7 amended: subject at `(0,0)`, `(cos, sin) = (1, 0)`,
distance 50. -/
theorem enrichment_floor_bounds_witness :
    (48 : ℚ) ^ 2 <
      (((enrichmentTap (0, 0) 1 0 50).1 : ℚ) - (0 : ℤ)) ^ 2 +
      (((enrichmentTap (0, 0) 1 0 50).2 : ℚ) - (0 : ℤ)) ^ 2 :=
  enrichment_floor_bounds (0, 0) 1 0 50 (by norm_num) (by norm_num)

/-- The `pattern_active` flag of `PatternExecutor`, toggled by
`start_pattern`/`stop_pattern` (`src/modules/patterns.py` lines 76-82). -/
structure ExecutorState where
  pattern_active : Bool

/-- Model of `PatternExecutor.start_pattern`: mark pattern as active. -/
def start_pattern (s : ExecutorState) : ExecutorState := { s with pattern_active := true }

/-- Model of `PatternExecutor.stop_pattern`: mark pattern as inactive. -/
def stop_pattern (s : ExecutorState) : ExecutorState := { s with pattern_active := false }

/-- The five pattern names recognised by `execute_pattern`'s dispatch
(`src/modules/patterns.py` lines 162-171). -/
def knownPatternTypes : List String :=
  ["Random", "Circular", "Laser Pointer", "Fixed Points", "Kitty Mode"]

/-- Model of `PatternExecutor.execute_pattern` (`src/modules/patterns.py` lines
146-182).  The body of each known pattern performs device I/O and random
draws; it is abstracted as the oracle `inner`, which returns the state it
leaves behind together with `some e` when it raises an exception (Python
state mutations made before a raise persist, so a state is returned either
way).  Dispatch: `start_pattern`, then run the named pattern inside
`try`: an unknown type logs, calls `stop_pattern` and returns `False`; a
normal run calls `stop_pattern` and returns `True`; a caught exception
calls `stop_pattern` and returns `False`. -/
def execute_pattern (inner : String → ExecutorState → ExecutorState × Option String)
    (pattern_type : String) (s : ExecutorState) : Bool × ExecutorState :=
  let s1 := start_pattern s
  if pattern_type ∈ knownPatternTypes then
    match inner pattern_type s1 with
    | (s2, none) => (true, stop_pattern s2)
    | (s2, some _) => (false, stop_pattern s2)
  else
    (false, stop_pattern s1)

/-- C10: for every pattern-type string, every behaviour of the inner pattern
(including raising an exception) and every initial state, `execute_pattern`
leaves the executor's `pattern_active` flag `False` when it returns — every
exit path (success, unknown type, caught exception) ends in `stop_pattern`. -/
theorem execute_pattern_clears_active
    (inner : String → ExecutorState → ExecutorState × Option String)
    (pattern_type : String) (s : ExecutorState) :
    (execute_pattern inner pattern_type s).2.pattern_active = false := by
  rw [execute_pattern]
  by_cases h : pattern_type ∈ knownPatternTypes
  · rw [if_pos h]
    rcases inner pattern_type (start_pattern s) with ⟨s2, e⟩
    cases e <;> simp [stop_pattern]
  · rw [if_neg h]
    simp [stop_pattern]

/-- The alternative-pattern selector in the pattern-change branch of
`PetCubeHelper.continuous_pattern_loop` (`src/petcubehelper.py` lines
515-517): `other_patterns = [p for p in all_patterns if p != current_pattern]`
(length `n` when the catalog has `n + 1` entries, order preserved) indexed by
the draw `j` of `random.choice`.  Catalog index `0` is the user-selected
primary pattern (`main_pattern`). -/
def altPattern {n : ℕ} (current : Fin (n + 1)) (j : Fin n) : Fin (n + 1) :=
  if (j : ℕ) < (current : ℕ) then j.castSucc else j.succ

/-- One pattern-change event (`src/petcubehelper.py` lines 510-517):
`r` is the draw of `random.random()`; if `r < 0.7` the primary pattern is
selected, otherwise `random.choice(other_patterns)` picks index `j`. -/
def nextPattern {n : ℕ} (current : Fin (n + 1)) (r : ℚ) (j : Fin n) : Fin (n + 1) :=
  if r < 7/10 then 0 else altPattern current j

/-- Probability that a single change event selects the primary pattern, given
the currently running pattern: mass `7/10` of the `r` draw goes to the keep
branch, and the remaining `3/10` is spread uniformly over the `n` alternative
indices, of which `altHits current` select the primary. -/
def probChooseMain {n : ℕ} (current : Fin (n + 1)) : ℚ :=
  7/10 + 3/10 *
    (((Finset.univ.filter fun j : Fin n => altPattern current j = 0).card : ℚ) / n)

theorem probChooseMain_zero (n : ℕ) : probChooseMain (0 : Fin (n + 1)) = 7/10 := by
  have hcard : (Finset.univ.filter fun j : Fin n => altPattern (0 : Fin (n + 1)) j = 0) = ∅ := by
    refine Finset.filter_false_of_mem ?_
    intro j _
    rw [altPattern]
    simp [Fin.succ_ne_zero]
  rw [probChooseMain, hcard]
  simp

theorem probChooseMain_ne_zero {n : ℕ} (current : Fin (n + 1)) (hc : current ≠ 0) :
    probChooseMain current = 7/10 + 3/10 * (1 / n) := by
  have hcpos : 0 < (current : ℕ) := by
    rcases Nat.eq_zero_or_pos (current : ℕ) with h | h
    · exact absurd (Fin.ext h) hc
    · exact h
  have hn : 0 < n := by
    have := current.isLt
    omega
  have hcard : (Finset.univ.filter fun j : Fin n => altPattern current j = 0) =
      {⟨0, hn⟩} := by
    ext j
    simp only [Finset.mem_filter, Finset.mem_univ, true_and, Finset.mem_singleton]
    constructor
    · intro hj
      rw [altPattern] at hj
      by_cases hlt : (j : ℕ) < (current : ℕ)
      · rw [if_pos hlt] at hj
        have : (j : ℕ) = 0 := by
          have := congrArg Fin.val hj
          simpa using this
        exact Fin.ext this
      · rw [if_neg hlt] at hj
        exact absurd hj (Fin.succ_ne_zero j)
    · intro hj
      subst hj
      rw [altPattern, if_pos (by simpa using hcpos)]
      rfl
  rw [probChooseMain, hcard]
  simp

/-- Probability of selecting the primary at a change event when the currently
running pattern is not the primary (`probChooseMain_ne_zero`). -/
def pAlt (n : ℕ) : ℚ := 7/10 + 3/10 * (1 / n)

/-- Value `mainProbSeq n k` is the probability that the pattern selected at the
`k`-th change event is the primary, for a catalog of `n + 1` patterns.  Before
the first event the running pattern is the primary (`current_pattern =
main_pattern`, line 504), so the index-0 value is 1; each event updates the
distribution with the two conditional probabilities `probChooseMain 0 = 7/10`
(keep branch then current is primary) and `pAlt n` (current is an
alternative). -/
def mainProbSeq (n : ℕ) : ℕ → ℚ
  | 0 => 1
  | k + 1 => 7/10 * mainProbSeq n k + pAlt n * (1 - mainProbSeq n k)

theorem mainProbSeq_bounds (n : ℕ) (hn : 2 ≤ n) :
    ∀ k : ℕ, 1 ≤ k → 7/10 ≤ mainProbSeq n k ∧ mainProbSeq n k ≤ 149/200 := by
  have hnq : (2 : ℚ) ≤ (n : ℚ) := by exact_mod_cast hn
  have hnpos : (0 : ℚ) < (n : ℚ) := by linarith
  have hinv_pos : (0 : ℚ) < 1 / (n : ℚ) := by positivity
  have hinv_le : (1 : ℚ) / (n : ℚ) ≤ 1 / 2 := by
    rw [div_le_div_iff hnpos (by norm_num)]
    linarith
  intro k hk
  induction k with
  | zero => omega
  | succ k ih =>
      by_cases hk1 : 1 ≤ k
      · rcases ih hk1 with ⟨hlo, hhi⟩
        rw [mainProbSeq, pAlt]
        constructor
        · nlinarith
        · nlinarith
      · have hk0 : k = 0 := by omega
        subst hk0
        rw [mainProbSeq, mainProbSeq, pAlt]
        norm_num

/-- C5: for a catalog with at least 2 alternatives to the primary pattern
(`n ≥ 2`), the probability that any given change event (from the first on)
selects the primary lies in `[0.65, 0.75]`, and consequently the expected
fraction of the first `N` change events selecting the primary lies in
`[0.65, 0.75]` for every `N ≥ 1`. -/
theorem scheduler_primary_fraction (n : ℕ) (hn : 2 ≤ n) :
    (∀ k : ℕ, 1 ≤ k → 13/20 ≤ mainProbSeq n k ∧ mainProbSeq n k ≤ 3/4) ∧
    (∀ N : ℕ, 1 ≤ N →
      13/20 ≤ (∑ k in Finset.Icc 1 N, mainProbSeq n k) / N ∧
      (∑ k in Finset.Icc 1 N, mainProbSeq n k) / N ≤ 3/4) := by
  have hpt : ∀ k : ℕ, 1 ≤ k → 13/20 ≤ mainProbSeq n k ∧ mainProbSeq n k ≤ 3/4 := by
    intro k hk
    rcases mainProbSeq_bounds n hn k hk with ⟨hlo, hhi⟩
    constructor <;> linarith
  refine ⟨hpt, ?_⟩
  intro N hN
  have hNq : (0 : ℚ) < (N : ℚ) := by exact_mod_cast hN
  have hcard : (Finset.Icc 1 N).card = N := by
    rw [Nat.card_Icc]
    omega
  have hlo : (13/20 : ℚ) * N ≤ ∑ k in Finset.Icc 1 N, mainProbSeq n k := by
    calc (13/20 : ℚ) * N = ∑ _k in Finset.Icc 1 N, (13/20 : ℚ) := by
          rw [Finset.sum_const, hcard, nsmul_eq_mul, mul_comm]
      _ ≤ ∑ k in Finset.Icc 1 N, mainProbSeq n k := by
          refine Finset.sum_le_sum ?_
          intro k hk
          rw [Finset.mem_Icc] at hk
          exact (hpt k hk.1).1
  have hhi : (∑ k in Finset.Icc 1 N, mainProbSeq n k) ≤ (3/4 : ℚ) * N := by
    calc (∑ k in Finset.Icc 1 N, mainProbSeq n k)
        ≤ ∑ _k in Finset.Icc 1 N, (3/4 : ℚ) := by
          refine Finset.sum_le_sum ?_
          intro k hk
          rw [Finset.mem_Icc] at hk
          exact (hpt k hk.1).2
      _ = (3/4 : ℚ) * N := by
          rw [Finset.sum_const, hcard, nsmul_eq_mul, mul_comm]
  constructor
  · rw [le_div_iff hNq]
    linarith
  · rw [div_le_iff hNq]
    linarith

/-- Witness for C5: the non-reactive catalog of 5 patterns (`n = 4`
alternatives to the primary). -/
theorem scheduler_primary_fraction_witness :
    (∀ k : ℕ, 1 ≤ k → 13/20 ≤ mainProbSeq 4 k ∧ mainProbSeq 4 k ≤ 3/4) ∧
    (∀ N : ℕ, 1 ≤ N →
      13/20 ≤ (∑ k in Finset.Icc 1 N, mainProbSeq 4 k) / N ∧
      (∑ k in Finset.Icc 1 N, mainProbSeq 4 k) / N ≤ 3/4) :=
  scheduler_primary_fraction 4 (by norm_num)

/-- Deterministic interface to Python's `random` module, the `math` float
functions and the wall clock, threaded as explicit state `σ`.  Fixing `σ`, the
operations and an initial state fixes a random seed: two executions given the
same `Env` and initial state observe identical draws.  `choice4` models
`random.choice` over the 4-element prey-behaviour list of
`execute_kitty_mode_pattern`. -/
structure Env (σ : Type) where
  uniform : ℚ → ℚ → σ → ℚ × σ
  randint : ℤ → ℤ → σ → ℤ × σ
  choice4 : σ → Fin 4 × σ
  cos : ℚ → ℚ
  sin : ℚ → ℚ
  pi : ℚ
  time : σ → ℚ
  sleep : ℚ → σ → σ

/-- Model of `PatternExecutor.get_safe_coordinates` (`src/modules/patterns.py` lines
118-128): a `randint` draw per axis inside the safe zone. -/
def get_safe_coordinates {σ} (env : Env σ) (sz : SafeZone) (s : σ) : (ℤ × ℤ) × σ :=
  let (x, s1) := env.randint sz.min_x sz.max_x s
  let (y, s2) := env.randint sz.min_y sz.max_y s1
  ((x, y), s2)

/-- Loop body of `PatternExecutor._execute_prey_movement`
(`src/modules/patterns.py` lines 364-392), returning the sequence of tap
requests passed to `execute_tap` and the final draw state. -/
def preyMoveSteps {σ} (env : Env σ) (intensity : ℚ) :
    ℕ → ℤ × ℤ → σ → List (ℤ × ℤ) × σ
  | 0, _, s => ([], s)
  | k + 1, last, s =>
      let (angle, s1) := env.uniform 0 (2 * env.pi) s
      let (distance, s2) := env.uniform 10 (80 * intensity) s1
      let nx := pytrunc ((last.1 : ℚ) + distance * env.cos angle)
      let ny := pytrunc ((last.2 : ℚ) + distance * env.sin angle)
      let (d, s3) := env.uniform (1/10) (3/10) s2
      let s4 := env.sleep d s3
      let (rest, s5) := preyMoveSteps env intensity k (nx, ny) s4
      ((nx, ny) :: rest, s5)

/-- Model of `PatternExecutor._execute_prey_movement`:
`num_moves = max(15, int(30 * intensity))` small erratic movements. -/
def execute_prey_movement {σ} (env : Env σ) (start : ℤ × ℤ) (intensity : ℚ)
    (s : σ) : List (ℤ × ℤ) × σ :=
  preyMoveSteps env intensity (max 15 (pytrunc (30 * intensity)).toNat) start s

/-- Slow steps of one stalking sequence
(`src/modules/patterns.py` lines 406-423), returning taps, the final position
and the final draw state. -/
def stalkSlowSteps {σ} (env : Env σ) :
    ℕ → ℤ × ℤ → σ → (List (ℤ × ℤ) × (ℤ × ℤ)) × σ
  | 0, last, s => (([], last), s)
  | k + 1, last, s =>
      let (angle, s1) := env.uniform 0 (2 * env.pi) s
      let (distance, s2) := env.uniform 5 30 s1
      let nx := pytrunc ((last.1 : ℚ) + distance * env.cos angle)
      let ny := pytrunc ((last.2 : ℚ) + distance * env.sin angle)
      let (d, s3) := env.uniform (2/5) (7/10) s2
      let s4 := env.sleep d s3
      let (res, s5) := stalkSlowSteps env k (nx, ny) s4
      (((nx, ny) :: res.1, res.2), s5)

/-- Sequences of `PatternExecutor._execute_stalking_prey`
(`src/modules/patterns.py` lines 394-439): `randint(3,5)` slow steps followed
by a fast dart of distance `uniform(100,200) * intensity`. -/
def stalkSequences {σ} (env : Env σ) (intensity : ℚ) :
    ℕ → ℤ × ℤ → σ → List (ℤ × ℤ) × σ
  | 0, _, s => ([], s)
  | k + 1, last, s =>
      let (slow, s1) := env.randint 3 5 s
      let (res, s2) := stalkSlowSteps env slow.toNat last s1
      let (angle, s3) := env.uniform 0 (2 * env.pi) s2
      let (dd, s4) := env.uniform 100 200 s3
      let distance := dd * intensity
      let nx := pytrunc ((res.2.1 : ℚ) + distance * env.cos angle)
      let ny := pytrunc ((res.2.2 : ℚ) + distance * env.sin angle)
      let (d, s5) := env.uniform (1/2) (9/10) s4
      let s6 := env.sleep d s5
      let (rest, s7) := stalkSequences env intensity k (nx, ny) s6
      ((res.1 ++ [(nx, ny)]) ++ rest, s7)

/-- Model of `PatternExecutor._execute_stalking_prey`:
`num_sequences = max(3, int(6 * intensity))`. -/
def execute_stalking_prey {σ} (env : Env σ) (start : ℤ × ℤ) (intensity : ℚ)
    (s : σ) : List (ℤ × ℤ) × σ :=
  stalkSequences env intensity (max 3 (pytrunc (6 * intensity)).toNat) start s

/-- The timed jitter loop of `PatternExecutor._execute_hiding_prey`
(`src/modules/patterns.py` lines 461-471):
`while time() - freeze_start < freeze_time`, tap `last + randint(-2,2)` per
axis and sleep 0.2.  The wall-clock condition is decided by `env.time`;
`fuel` bounds the iterations of the while loop. -/
def hidingJitterLoop {σ} (env : Env σ) (last : ℤ × ℤ)
    (freeze_start freeze_time : ℚ) :
    ℕ → σ → List (ℤ × ℤ) × σ
  | 0, s => ([], s)
  | fuel + 1, s =>
      if env.time s - freeze_start < freeze_time then
        let (jx, s1) := env.randint (-2) 2 s
        let (jy, s2) := env.randint (-2) 2 s1
        let s3 := env.sleep (1/5) s2
        let (rest, s4) := hidingJitterLoop env last freeze_start freeze_time fuel s3
        ((last.1 + jx, last.2 + jy) :: rest, s4)
      else ([], s)

/-- Sequences of `PatternExecutor._execute_hiding_prey`
(`src/modules/patterns.py` lines 441-487): a `uniform(0.3,0.7)` freeze served
by jitter taps, then a dash of distance `uniform(80,180) * intensity`. -/
def hidingSequences {σ} (env : Env σ) (intensity : ℚ) (jitterFuel : ℕ) :
    ℕ → ℤ × ℤ → σ → List (ℤ × ℤ) × σ
  | 0, _, s => ([], s)
  | k + 1, last, s =>
      let (freeze_time, s1) := env.uniform (3/10) (7/10) s
      let freeze_start := env.time s1
      let (jitters, s2) := hidingJitterLoop env last freeze_start freeze_time jitterFuel s1
      let (angle, s3) := env.uniform 0 (2 * env.pi) s2
      let (dd, s4) := env.uniform 80 180 s3
      let distance := dd * intensity
      let nx := pytrunc ((last.1 : ℚ) + distance * env.cos angle)
      let ny := pytrunc ((last.2 : ℚ) + distance * env.sin angle)
      let (d, s5) := env.uniform (1/5) (2/5) s4
      let s6 := env.sleep d s5
      let (rest, s7) := hidingSequences env intensity jitterFuel k (nx, ny) s6
      ((jitters ++ [(nx, ny)]) ++ rest, s7)

/-- Model of `PatternExecutor._execute_hiding_prey`:
`num_sequences = max(4, int(8 * intensity))`. -/
def execute_hiding_prey {σ} (env : Env σ) (jitterFuel : ℕ) (start : ℤ × ℤ)
    (intensity : ℚ) (s : σ) : List (ℤ × ℤ) × σ :=
  hidingSequences env intensity jitterFuel (max 4 (pytrunc (8 * intensity)).toNat) start s

/-- Steps of `PatternExecutor._execute_fleeing_prey`
(`src/modules/patterns.py` lines 503-521): a shared main direction with
`uniform(-0.5,0.5)` variation and distance `uniform(40,100) * intensity`. -/
def fleeSteps {σ} (env : Env σ) (intensity main_angle : ℚ) :
    ℕ → ℤ × ℤ → σ → List (ℤ × ℤ) × σ
  | 0, _, s => ([], s)
  | k + 1, last, s =>
      let (var, s1) := env.uniform (-(1/2)) (1/2) s
      let move_angle := main_angle + var
      let (dd, s2) := env.uniform 40 100 s1
      let distance := dd * intensity
      let nx := pytrunc ((last.1 : ℚ) + distance * env.cos move_angle)
      let ny := pytrunc ((last.2 : ℚ) + distance * env.sin move_angle)
      let (d, s3) := env.uniform (1/5) (2/5) s2
      let s4 := env.sleep d s3
      let (rest, s5) := fleeSteps env intensity main_angle k (nx, ny) s4
      ((nx, ny) :: rest, s5)

/-- Model of `PatternExecutor._execute_fleeing_prey` (lines 489-521):
`num_moves = max(8, int(15 * intensity))`. -/
def execute_fleeing_prey {σ} (env : Env σ) (start : ℤ × ℤ) (intensity : ℚ)
    (s : σ) : List (ℤ × ℤ) × σ :=
  let (main_angle, s1) := env.uniform 0 (2 * env.pi) s
  fleeSteps env intensity main_angle (max 8 (pytrunc (15 * intensity)).toNat) start s1

/-- Model of `PatternExecutor.execute_kitty_mode_pattern`
(`src/modules/patterns.py` lines 327-362): start at a random safe point,
`random.choice` one of the four prey behaviours, run it.  The source's
`if/elif` chain over the chosen name is the chain over `Fin 4` here
(`prey_movement`, `stalking_prey`, `hiding_prey`, `fleeing_prey` in list
order). -/
def execute_kitty_mode_pattern {σ} (env : Env σ) (sz : SafeZone)
    (jitterFuel : ℕ) (intensity : ℚ) (s : σ) : List (ℤ × ℤ) × σ :=
  let (start, s1) := get_safe_coordinates env sz s
  let (c, s2) := env.choice4 s1
  if c = 0 then execute_prey_movement env start intensity s2
  else if c = 1 then execute_stalking_prey env start intensity s2
  else if c = 2 then execute_hiding_prey env jitterFuel start intensity s2
  else execute_fleeing_prey env start intensity s2

/-- Model of the `CatReactivePatterns.execute_cat_following_pattern` detection guard
(`src/modules/vision/cat_patterns.py` lines 44-47): when the tracker reports
no detection the code logs "No cat detected, using fallback pattern" and
delegates to `pattern_executor.execute_kitty_mode_pattern(intensity)` on the
same (module-global) RNG state — it does not raise.  The detected branch
(lines 49-111) is abstracted as the continuation `detected`; the property
under verification concerns only the no-detection path. -/
def execute_cat_following_pattern {σ} (env : Env σ) (sz : SafeZone)
    (jitterFuel : ℕ) (intensity : ℚ) (cat_pos : Option BBox)
    (detected : BBox → σ → List (ℤ × ℤ) × σ) (s : σ) : List (ℤ × ℤ) × σ :=
  match cat_pos with
  | none => execute_kitty_mode_pattern env sz jitterFuel intensity s
  | some bb => detected bb s

/-- Model of the `CatReactivePatterns.execute_cat_teasing_pattern` detection guard
(`src/modules/vision/cat_patterns.py` lines 125-128): identical fallback
structure; the detected branch (lines 130-183) is the continuation. -/
def execute_cat_teasing_pattern {σ} (env : Env σ) (sz : SafeZone)
    (jitterFuel : ℕ) (intensity : ℚ) (cat_pos : Option BBox)
    (detected : BBox → σ → List (ℤ × ℤ) × σ) (s : σ) : List (ℤ × ℤ) × σ :=
  match cat_pos with
  | none => execute_kitty_mode_pattern env sz jitterFuel intensity s
  | some bb => detected bb s

/-- Model of the `CatReactivePatterns.execute_cat_enrichment_pattern` detection guard
(`src/modules/vision/cat_patterns.py` lines 197-200): identical fallback
structure; the detected branch (lines 202-243) is the continuation. -/
def execute_cat_enrichment_pattern {σ} (env : Env σ) (sz : SafeZone)
    (jitterFuel : ℕ) (intensity : ℚ) (cat_pos : Option BBox)
    (detected : BBox → σ → List (ℤ × ℤ) × σ) (s : σ) : List (ℤ × ℤ) × σ :=
  match cat_pos with
  | none => execute_kitty_mode_pattern env sz jitterFuel intensity s
  | some bb => detected bb s

/-- C9: when the tracker reports no detection, each of the three reactive
generators produces exactly the tap sequence (and final RNG/clock state) of
the default non-reactive kitty-mode pattern run at the same intensity from
the same random state, for every environment, safe zone, intensity and
detected-branch behaviour; the fallback is an ordinary return, never an
error. -/
theorem reactive_fallback_equals_kitty {σ} (env : Env σ) (sz : SafeZone)
    (jitterFuel : ℕ) (intensity : ℚ)
    (fd td ed : BBox → σ → List (ℤ × ℤ) × σ) (s : σ) :
    execute_cat_following_pattern env sz jitterFuel intensity none fd s =
        execute_kitty_mode_pattern env sz jitterFuel intensity s ∧
    execute_cat_teasing_pattern env sz jitterFuel intensity none td s =
        execute_kitty_mode_pattern env sz jitterFuel intensity s ∧
    execute_cat_enrichment_pattern env sz jitterFuel intensity none ed s =
        execute_kitty_mode_pattern env sz jitterFuel intensity s :=
  ⟨rfl, rfl, rfl⟩

end PetcubeHelper
